import Mathlib

/-!
# Verification of SysMon (sys_mon.py, application/app_threading.py)

Shallow embedding of the SysMon repository:

* `sys_mon.py`: the metrics snapshot builder (`SysMon.monitor_system_metrics`)
  and the threshold evaluator (`SysMon.check_thresholds`).  Python dictionaries
  holding the metrics record are embedded as `PyVal`; percentages and byte
  counts are modelled as rationals (`ℚ`); a failing dictionary subscript
  (`KeyError` / `TypeError`) is modelled with `Except String`.
* `application/app_threading.py`: the `Application` worker daemon.  The two
  threads of control (caller plus one worker) are embedded as an explicit state
  machine: the worker's position inside `Application._loop` is a `WorkerPhase`
  and the caller operations `start` / `stop` are state transformers; arbitrary
  interleavings are captured by a step relation `Step` and its reachable set.
-/

/-! ## Python values

`sys_mon.py` stores the metrics record in nested `dict`s keyed by strings, with
leaves that are numbers or preformatted strings.  `PyVal` embeds exactly the
shapes used there.  A Python dict preserves insertion order; assigning to an
existing key overwrites in place, assigning a fresh key appends. -/

inductive PyVal where
  | num (q : ℚ)
  | str (s : String)
  | dict (entries : List (String × PyVal))
deriving Repr

/-- Ordered-dict lookup (Python `d[k]`, successful case). -/
def lookupKey : List (String × PyVal) → String → Option PyVal
  | [], _ => none
  | (k0, v) :: rest, k => if k0 = k then some v else lookupKey rest k

/-- Ordered-dict assignment `d[k] = v`: overwrite in place, else append. -/
def dictInsert : List (String × PyVal) → String → PyVal → List (String × PyVal)
  | [], k, v => [(k, v)]
  | (k0, v0) :: rest, k, v =>
    if k0 = k then (k, v) :: rest else (k0, v0) :: dictInsert rest k v

/-- Python subscript `d[k]`: `KeyError` when the key is absent, `TypeError`
when the value is not a dict. -/
def PyVal.getItem : PyVal → String → Except String PyVal
  | .dict entries, k =>
    match lookupKey entries k with
    | some v => .ok v
    | none => .error ("KeyError: " ++ k)
  | .num _, k => .error ("TypeError: not subscriptable: " ++ k)
  | .str _, k => .error ("TypeError: not subscriptable: " ++ k)

/-- Using a Python value as a number (the `>` comparisons in
`check_thresholds`); non-numbers would raise `TypeError`. -/
def PyVal.asNum : PyVal → Except String ℚ
  | .num q => .ok q
  | .str _ => .error "TypeError: not a number"
  | .dict _ => .error "TypeError: not a number"

/-- Iterating a Python dict (`d.items()`); non-dicts would raise. -/
def PyVal.asDict : PyVal → Except String (List (String × PyVal))
  | .dict entries => .ok entries
  | .num _ => .error "TypeError: not a dict"
  | .str _ => .error "TypeError: not a dict"

/-! ## Threshold constants (sys_mon.py lines 16-18) -/

def CPU_USAGE_PERCENT : ℚ := 85
def MEMORY_USAGE_PERCENT : ℚ := 80
def DISK_USAGE_PERCENT : ℚ := 90

/-! ## Raw readings (the psutil boundary)

`monitor_system_metrics` pulls point-in-time readings from psutil.  Each
reading is an input of the embedded builder. -/

structure VirtualMemoryR where
  percent : ℚ
  used : ℚ
  total : ℚ
deriving Repr, DecidableEq

structure NetIOCountersR where
  bytes_sent : ℚ
  bytes_recv : ℚ
  errin : ℚ
  errout : ℚ
  dropin : ℚ
  dropout : ℚ
deriving Repr, DecidableEq

structure DiskUsageR where
  total : ℚ
  used : ℚ
  free : ℚ
  percent : ℚ
deriving Repr, DecidableEq

structure Partition where
  device : String
  mountpoint : String
deriving Repr, DecidableEq

/-- One element of `psutil.process_iter(["pid", "name", "memory_percent"])`;
`memory_percent` may be absent (`None`). -/
structure ProcInfo where
  pid : Nat
  name : String
  memory_percent : Option ℚ
deriving Repr, DecidableEq

/-- All psutil readings consumed by one call of `monitor_system_metrics`.
`disk_usage` maps a mountpoint to either a usage record or a
`PermissionError` (modelled as `Except.error` with the error text); the
`boot_time` field stands for the already-formatted
`datetime.fromtimestamp(psutil.boot_time()).strftime(...)` string, whose
formatting is outside the embedded fragment. -/
structure RawReadings where
  cpu_percent : ℚ
  getloadavg : List ℚ
  cpu_count : ℚ
  virtual_memory : VirtualMemoryR
  net_io_counters : NetIOCountersR
  disk_partitions : List Partition
  disk_usage : String → Except String DiskUsageR
  boot_time : String
  processes : List ProcInfo

/-! ## Snapshot construction (monitor_system_metrics, lines 104-146) -/

/-- Stands for Python's `f"{x:.2f}"`.  Every claim is insensitive to the exact
rendered text (these strings are display-only leaves of the record), so the
embedding renders the exact rational instead of rounding to two decimals. -/
def fmt2 (q : ℚ) : String := toString q

/-- `f"{b / 1024 / 1024 / 1024:.2f} Gb"`. -/
def gbFmt (bytes : ℚ) : String := fmt2 (bytes / 1024 / 1024 / 1024) ++ " Gb"

/-- `f"{b / 1024 / 1024:.2f}"`. -/
def mbFmt (bytes : ℚ) : String := fmt2 (bytes / 1024 / 1024)

/-- `[x / psutil.cpu_count() * 100 for x in psutil.getloadavg()]`. -/
def cpuUsageAvg (r : RawReadings) : List ℚ :=
  r.getloadavg.map (fun x => x / r.cpu_count * 100)

/-- Rendering of the load-average list (`f"{cpu_usage_avg}"`), display only. -/
def listFmt (qs : List ℚ) : String := toString (qs.map fmt2)

/-- The per-partition dict value built at lines 114-120. -/
def diskEntry (du : DiskUsageR) (mountpoint : String) : PyVal :=
  .dict
    [("total", .str (gbFmt du.total)),
     ("used", .str (gbFmt du.used)),
     ("free", .str (gbFmt du.free)),
     ("percent", .num du.percent),
     ("mountpoint", .str mountpoint)]

/-- The disk-collection loop (lines 110-124): try `disk_usage(mountpoint)` for
each partition; on `PermissionError` log a warning and `continue`, otherwise
assign `disk_info[partition.device] = {...}`. -/
def collectDiskInfo (usage : String → Except String DiskUsageR) :
    List Partition → List (String × PyVal) → List (String × PyVal)
  | [], acc => acc
  | p :: rest, acc =>
    match usage p.mountpoint with
    | .ok du => collectDiskInfo usage rest (dictInsert acc p.device (diskEntry du p.mountpoint))
    | .error _ => collectDiskInfo usage rest acc

/-- The metrics record assigned to `self.metrics` (lines 126-146). -/
def monitor_system_metrics (r : RawReadings) : PyVal :=
  .dict
    [("system_info", .dict
        [("boot_time", .str r.boot_time),
         ("cpu_usage", .num r.cpu_percent),
         ("cpu_usage_avg", .str (listFmt (cpuUsageAvg r)))]),
     ("memory_usage", .dict
        [("percent", .num r.virtual_memory.percent),
         ("used_mb", .str (mbFmt r.virtual_memory.used)),
         ("total_mb", .str (mbFmt r.virtual_memory.total))]),
     ("disk_usage", .dict (collectDiskInfo r.disk_usage r.disk_partitions [])),
     ("net_usage", .dict
        [("bytes_sent", .num r.net_io_counters.bytes_sent),
         ("bytes_received", .num r.net_io_counters.bytes_recv),
         ("error_in", .num r.net_io_counters.errin),
         ("error_out", .num r.net_io_counters.errout),
         ("drop_in", .num r.net_io_counters.dropin),
         ("drop_out", .num r.net_io_counters.dropout)])]

/-! ## Top-process selection (lines 150-165) -/

/-- Sort key `lambda p: p["memory_percent"]`; after the `is not None` filter
every element carries a reading, so the default is never consulted. -/
def memKey (p : ProcInfo) : ℚ := p.memory_percent.getD 0

/-- The ordering handed to Python's stable `sorted(..., reverse=True)`:
`p` may precede `q` when `p`'s key is at least `q`'s. -/
def procDescOrder (p q : ProcInfo) : Prop := memKey q ≤ memKey p

instance : DecidableRel procDescOrder := fun p q =>
  inferInstanceAs (Decidable (memKey q ≤ memKey p))

/-- Lines 152-162: keep processes with a `memory_percent` reading, sort
descending by that reading (stable, as Python's `sorted` with `reverse=True`
is), report the first 5 (`processes[:5]`). -/
def topProcesses (ps : List ProcInfo) : List ProcInfo :=
  ((ps.filter (fun p => p.memory_percent.isSome)).insertionSort procDescOrder).take 5

/-! ## Threshold evaluation (check_thresholds, lines 64-85)

The source compares the stored record against the three constants and logs one
warning per breach, in the textual order of the function.  Each logged warning
is embedded as an `Alert` carrying the value interpolated into the message and
the threshold it was compared against.  Failing subscripts propagate as
`Except.error`; the only subscript in the function that can fail on a record
built by `monitor_system_metrics` is `self.metrics['cpu_usage']` inside the
CPU warning message, which runs before any alert has been emitted, so
collapsing to `Except` loses no emitted alert on such records. -/

inductive Alert where
  | cpu (observed : PyVal) (threshold : ℚ)
  | memory (observed : PyVal) (threshold : ℚ)
  | disk (device : String) (observed : PyVal) (threshold : ℚ)
deriving Repr

/-- `SysMon.check_thresholds`.  `metrics = none` embeds `self.metrics is None`
(before the first capture). -/
def check_thresholds (metrics : Option PyVal) : Except String (List Alert) := do
  match metrics with
  | none => return []
  | some m =>
    -- if self.metrics["system_info"]["cpu_usage"] > CPU_USAGE_PERCENT:
    let cpuUsage ← (← (← m.getItem "system_info").getItem "cpu_usage").asNum
    let cpuAlerts ←
      if cpuUsage > CPU_USAGE_PERCENT then do
        -- the warning message interpolates self.metrics['cpu_usage']
        let observed ← m.getItem "cpu_usage"
        pure [Alert.cpu observed CPU_USAGE_PERCENT]
      else pure []
    -- if self.metrics["memory_usage"]["percent"] > MEMORY_USAGE_PERCENT:
    let memPercent ← (← (← m.getItem "memory_usage").getItem "percent").asNum
    let memAlerts ←
      if memPercent > MEMORY_USAGE_PERCENT then do
        let observed ← (← m.getItem "memory_usage").getItem "percent"
        pure [Alert.memory observed MEMORY_USAGE_PERCENT]
      else pure []
    -- for disk, disk_data in self.metrics["disk_usage"].items():
    let entries ← (← m.getItem "disk_usage").asDict
    let diskAlerts ← entries.foldlM (fun acc kv => do
        let pnum ← (← kv.snd.getItem "percent").asNum
        if pnum > DISK_USAGE_PERCENT then do
          let observed ← (← (← m.getItem "disk_usage").getItem kv.fst).getItem "percent"
          pure (acc ++ [Alert.disk kv.fst observed DISK_USAGE_PERCENT])
        else pure acc) []
    return cpuAlerts ++ memAlerts ++ diskAlerts

/-! ## The worker daemon (application/app_threading.py)

`Application` owns one worker thread running `_loop`.  The embedding makes the
worker's position inside `_loop` explicit as a `WorkerPhase`, keeps every
thread ever spawned in a list indexed by spawn order (so "the thread object
currently stored in `self.worker_thread`" is an index), and renders
`start` / `stop` as state transformers.  The work unit `self.worker_loop`
is abstracted by which cycles raise: `w k = true` means the payload raises an
unhandled exception on cycle `k`. -/

def WorkBehavior := Nat → Bool

/-- Position of a worker thread inside `Application._loop` (lines 52-65):

* `checking k`: at `while not self.shutdown_event.is_set()`, having completed
  `k` work-unit cycles;
* `working k`: executing `self.worker_loop()` for cycle `k`;
* `waiting k`: inside `self.shutdown_event.wait(self.loop_interval)`;
* `failStopping k`: in the `except` handler, about to run `self.stop()`;
* `deadNormal k`: exited the loop normally after `k` completed cycles;
* `deadError k`: the thread died from an exception escaping `_loop`
  (the `RuntimeError` raised by joining the current thread). -/
inductive WorkerPhase where
  | checking (k : Nat)
  | working (k : Nat)
  | waiting (k : Nat)
  | failStopping (k : Nat)
  | deadNormal (k : Nat)
  | deadError (k : Nat)
deriving Repr, DecidableEq

def WorkerPhase.isDead : WorkerPhase → Bool
  | .deadNormal _ => true
  | .deadError _ => true
  | _ => false

/-- The `Application` object (constructor at lines 17-24) together with the
spawn history needed to talk about thread aliveness.  `threads` records the
phase of every thread ever handed to `threading.Thread(...)`, in spawn order;
`worker_thread` is the index currently stored in `self.worker_thread`
(`none` embeds Python `None`). -/
structure Application where
  shutdown_event : Bool
  worker_thread : Option Nat
  worker_loop : WorkBehavior
  loop_interval : Nat
  module_name : String
  threads : List WorkerPhase

/-- `Application.__init__`: event cleared, no worker thread yet. -/
def Application.init (module_name : String) (worker_loop : WorkBehavior)
    (loop_interval : Nat) : Application :=
  { shutdown_event := false
    worker_thread := none
    worker_loop := worker_loop
    loop_interval := loop_interval
    module_name := module_name
    threads := [] }

/-- `t` names a live thread (`threading.Thread.is_alive()`). -/
def Application.isAlive (s : Application) (t : Nat) : Bool :=
  match s.threads[t]? with
  | some ph => !ph.isDead
  | none => false

/-- The daemon is running: `self.worker_thread` holds a live thread.  This is
the observation `self.worker_thread.is_alive()` used by `start`, `stop` and
the entry point (spec operation `is_running()`). -/
def Application.is_running (s : Application) : Bool :=
  match s.worker_thread with
  | some t => s.isAlive t
  | none => false

/-- `Application.start` (lines 26-37): spawn a fresh thread at the top of
`_loop` when `self.worker_thread is None or not self.worker_thread.is_alive()`;
otherwise do nothing.  Note that the source never clears
`self.shutdown_event` here. -/
def Application.start (s : Application) : Application :=
  if s.is_running then s
  else { s with worker_thread := some s.threads.length
                threads := s.threads ++ [.checking 0] }

/-- One scheduler step of thread `t`'s execution of `_loop`, returning the
thread's next phase and whether the step sets `shutdown_event`; `none` when
the thread makes no state change (already dead, or blocked).  The
`failStopping` case runs `self.stop()` (lines 39-50) on the worker thread:
when `self.worker_thread` is this live thread itself, `stop` sets the event
and then `self.worker_thread.join()` raises `RuntimeError` (joining the
current thread), which escapes `_loop` and kills the thread; when the `stop`
guard is false, `stop` returns, the handler ends and the `while` loop
continues.  (A live `worker_thread` different from the executing thread would
block the join; that case is unreachable, every live thread being the one in
`worker_thread` — see `DaemonInv`.) -/
def Application.phaseStep (s : Application) (t : Nat) :
    WorkerPhase → Option (WorkerPhase × Bool)
  | .checking k =>
    if s.shutdown_event then some (.deadNormal k, false) else some (.working k, false)
  | .working k =>
    if s.worker_loop k then some (.failStopping k, false) else some (.waiting k, false)
  | .waiting k => some (.checking (k + 1), false)
  | .failStopping k =>
    match s.worker_thread with
    | some u =>
      if s.isAlive u then
        if u = t then some (.deadError k, true)
        else none
      else some (.checking (k + 1), false)
    | none => some (.checking (k + 1), false)
  | .deadNormal _ => none
  | .deadError _ => none

/-- Apply one step of thread `t` to the shared state. -/
def Application.workerStep (s : Application) (t : Nat) : Application :=
  match s.threads[t]? with
  | none => s
  | some ph =>
    match s.phaseStep t ph with
    | none => s
    | some (ph2, ev) =>
      { s with threads := s.threads.set t ph2
               shutdown_event := s.shutdown_event || ev }

/-- Progress of the thread being joined: it steps while alive.  `stop` blocks
until the join returns, i.e. until the joined thread is dead. -/
def Application.stepIfAlive (s : Application) (t : Nat) : Application :=
  if s.isAlive t then s.workerStep t else s

/-- From any phase, a worker observing a set event is dead within four steps
(`working → waiting → checking → deadNormal` is the longest chain), so four
guarded steps model the complete join. -/
def Application.joinRun (s : Application) (t : Nat) : Application :=
  ((((s.stepIfAlive t).stepIfAlive t).stepIfAlive t).stepIfAlive t)

/-- `Application.stop` called from the caller thread (lines 39-50): when
`self.worker_thread` holds a live thread, set `shutdown_event` and join —
block until the worker has exited; otherwise do nothing. -/
def Application.stop (s : Application) : Application :=
  match s.worker_thread with
  | some t =>
    if s.isAlive t then ({ s with shutdown_event := true } : Application).joinRun t
    else s
  | none => s

/-- Interleaving semantics: the caller may invoke `start` or `stop` at any
time, and any live thread may advance through `_loop`. -/
inductive Step : Application → Application → Prop where
  | start (s : Application) : Step s s.start
  | stop (s : Application) : Step s s.stop
  | worker (s : Application) (t : Nat) : s.isAlive t = true → Step s (s.workerStep t)

/-- States reachable from a freshly constructed `Application`. -/
inductive Reachable (module_name : String) (w : WorkBehavior) (interval : Nat) :
    Application → Prop where
  | init : Reachable module_name w interval (Application.init module_name w interval)
  | step {s s2 : Application} : Reachable module_name w interval s → Step s s2 →
      Reachable module_name w interval s2

/-- Every spawned thread other than the one currently stored in
`self.worker_thread` is dead. -/
def DaemonInv (s : Application) : Prop :=
  ∀ i ph, s.threads[i]? = some ph → s.worker_thread ≠ some i → ph.isDead = true

/-- Number of live threads. -/
def Application.aliveCount (s : Application) : Nat :=
  (List.range s.threads.length).countP (fun i => s.isAlive i)

/-- A work unit that never raises. -/
def wNever : WorkBehavior := fun _ => false

/-- A work unit that raises an unhandled exception on its second cycle
(cycle index 1). -/
def wSecond : WorkBehavior := fun k => k == 1

/-! ## Concrete scenarios used by the claim theorems -/

/-- `diskResult usage p`: the dict entry the disk loop produces for partition
`p`, or `none` when `disk_usage` raises `PermissionError` for it. -/
def diskResult (usage : String → Except String DiskUsageR) (p : Partition) :
    Option (String × PyVal) :=
  match usage p.mountpoint with
  | .ok du => some (p.device, diskEntry du p.mountpoint)
  | .error _ => none

/-- A capture whose CPU reading 90 exceeds the 85 threshold. -/
def rC1 : RawReadings :=
  { cpu_percent := 90
    getloadavg := []
    cpu_count := 4
    virtual_memory := { percent := 50, used := 1000, total := 2000 }
    net_io_counters :=
      { bytes_sent := 0, bytes_recv := 0, errin := 0, errout := 0, dropin := 0, dropout := 0 }
    disk_partitions := [{ device := "/dev/sda1", mountpoint := "/" }]
    disk_usage := fun _ => .ok { total := 100, used := 50, free := 50, percent := 50 }
    boot_time := "2026-01-01 00:00:00"
    processes := [] }

/-- A capture breaching all three thresholds (CPU 86, memory 95, disk 95). -/
def rC4 : RawReadings :=
  { rC1 with
    cpu_percent := 86
    virtual_memory := { percent := 95, used := 1900, total := 2000 }
    disk_usage := fun _ => .ok { total := 100, used := 95, free := 5, percent := 95 } }

/-- A capture sitting exactly on all three thresholds (CPU 85, memory 80,
disk 90). -/
def rC4eq : RawReadings :=
  { rC1 with
    cpu_percent := 85
    virtual_memory := { percent := 80, used := 1600, total := 2000 }
    disk_usage := fun _ => .ok { total := 100, used := 90, free := 10, percent := 90 } }

/-- A capture where CPU (90), memory (85) and one disk (95) all breach. -/
def rC7 : RawReadings :=
  { rC1 with
    virtual_memory := { percent := 85, used := 1700, total := 2000 }
    disk_usage := fun _ => .ok { total := 100, used := 95, free := 5, percent := 95 } }

/-- Like `rC7` but with a quiet CPU (10) and two breaching disks, to observe
the emission order of the remaining alerts. -/
def rC7b : RawReadings :=
  { rC7 with
    cpu_percent := 10
    disk_partitions :=
      [{ device := "/dev/sda1", mountpoint := "/" },
       { device := "/dev/sdb1", mountpoint := "/home" }] }

/-- C2 scenario: `start(); stop(); start()` with a payload that never raises. -/
def appC2 : Application := ((Application.init "SysMon" wNever 20).start.stop).start

/-- C3 scenario, five scheduler steps after `start()` with `wSecond`:
cycle 0 runs and waits, cycle 1 raises, and the worker is now inside the
`except` handler about to run `self.stop()`. -/
def appC3a : Application :=
  (((((Application.init "SysMon" wSecond 20).start.workerStep 0).workerStep
      0).workerStep 0).workerStep 0).workerStep 0

/-- C3 scenario, one step later: the worker has executed `self.stop()` on
itself. -/
def appC3 : Application := appC3a.workerStep 0

/-- The process enumeration of the C9 claim: memory readings
`[10, 40, 40, 5, 90, 1]` in pids 1..6. -/
def procsClaim : List ProcInfo :=
  [⟨1, "a", some 10⟩, ⟨2, "b", some 40⟩, ⟨3, "c", some 40⟩,
   ⟨4, "d", some 5⟩, ⟨5, "e", some 90⟩, ⟨6, "f", some 1⟩]

/-- C8 witness provider: `PermissionError` on `/var` only. -/
def uC8 : String → Except String DiskUsageR := fun m =>
  if m = "/var" then .error "PermissionError: /var"
  else .ok { total := 100, used := 50, free := 50, percent := 50 }

def pC8a : Partition := { device := "/dev/sda1", mountpoint := "/" }
def pC8b : Partition := { device := "/dev/sda2", mountpoint := "/var" }
def pC8c : Partition := { device := "/dev/sda3", mountpoint := "/home" }

/-! ## Auxiliary lemmas about the worker daemon -/

theorem workerStep_worker_thread (s : Application) (t : Nat) :
    (s.workerStep t).worker_thread = s.worker_thread := by
  unfold Application.workerStep
  split
  · rfl
  · split
    · rfl
    · rfl

theorem workerStep_of_not_alive (s : Application) (t : Nat) (h : s.isAlive t = false) :
    s.workerStep t = s := by
  unfold Application.isAlive at h
  unfold Application.workerStep
  cases hg : s.threads[t]? with
  | none => rfl
  | some ph =>
    rw [hg] at h
    simp only [Bool.not_eq_false'] at h
    cases ph with
    | deadNormal k => rfl
    | deadError k => rfl
    | checking k => simp [WorkerPhase.isDead] at h
    | working k => simp [WorkerPhase.isDead] at h
    | waiting k => simp [WorkerPhase.isDead] at h
    | failStopping k => simp [WorkerPhase.isDead] at h

theorem alive_is_worker_thread {s : Application} {t : Nat} (hinv : DaemonInv s)
    (h : s.isAlive t = true) : s.worker_thread = some t := by
  unfold Application.isAlive at h
  cases hg : s.threads[t]? with
  | none => rw [hg] at h; simp at h
  | some ph =>
    rw [hg] at h
    simp only [Bool.not_eq_true'] at h
    by_contra hne
    exact absurd (hinv t ph hg hne) (by simp [h])

theorem inv_workerStep {s : Application} (hinv : DaemonInv s) (t : Nat) :
    DaemonInv (s.workerStep t) := by
  by_cases ha : s.isAlive t = true
  · have hwt := alive_is_worker_thread hinv ha
    intro i ph hget hne
    rw [workerStep_worker_thread] at hne
    have hti : t ≠ i := by
      intro he
      exact hne (by rw [hwt, he])
    have hthreads : (s.workerStep t).threads[i]? = s.threads[i]? := by
      unfold Application.workerStep
      split
      · rfl
      · split
        · rfl
        · exact List.getElem?_set_ne hti
    rw [hthreads] at hget
    exact hinv i ph hget hne
  · rw [workerStep_of_not_alive s t (by simpa using ha)]
    exact hinv

theorem inv_start {s : Application} (hinv : DaemonInv s) : DaemonInv s.start := by
  unfold Application.start
  by_cases hr : s.is_running = true
  · simpa [hr] using hinv
  · simp only [Bool.not_eq_true] at hr
    simp only [hr, Bool.false_eq_true, if_false]
    intro i ph hget hne
    dsimp only at hget hne
    rcases Nat.lt_trichotomy i s.threads.length with hlt | heq | hgt
    · rw [List.getElem?_append_left hlt] at hget
      cases hwt : s.worker_thread with
      | none => exact hinv i ph hget (by simp [hwt])
      | some j =>
        by_cases hij : i = j
        · subst hij
          have hai : s.isAlive i = false := by
            unfold Application.is_running at hr
            rw [hwt] at hr
            exact hr
          unfold Application.isAlive at hai
          rw [hget] at hai
          simpa using hai
        · refine hinv i ph hget ?_
          rw [hwt]
          exact fun he => hij (by injection he with h2; exact h2.symm)
    · exact absurd (by rw [heq]) hne
    · rw [List.getElem?_append_right (by omega)] at hget
      rw [List.getElem?_eq_none (by simp; omega)] at hget
      cases hget

theorem inv_stepIfAlive {s : Application} (hinv : DaemonInv s) (t : Nat) :
    DaemonInv (s.stepIfAlive t) := by
  unfold Application.stepIfAlive
  split
  · exact inv_workerStep hinv t
  · exact hinv

theorem inv_joinRun {s : Application} (hinv : DaemonInv s) (t : Nat) :
    DaemonInv (s.joinRun t) :=
  inv_stepIfAlive (inv_stepIfAlive (inv_stepIfAlive (inv_stepIfAlive hinv t) t) t) t

theorem inv_event_set {s : Application} (hinv : DaemonInv s) :
    DaemonInv { s with shutdown_event := true } := by
  intro i ph hget hne
  exact hinv i ph hget hne

theorem inv_stop {s : Application} (hinv : DaemonInv s) : DaemonInv s.stop := by
  unfold Application.stop
  split
  · split
    · exact inv_joinRun (inv_event_set hinv) _
    · exact hinv
  · exact hinv

theorem inv_init (n : String) (w : WorkBehavior) (iv : Nat) :
    DaemonInv (Application.init n w iv) := by
  intro i ph hget hne
  simp [Application.init] at hget

theorem reachable_inv {n : String} {w : WorkBehavior} {iv : Nat} {s : Application}
    (h : Reachable n w iv s) : DaemonInv s := by
  induction h with
  | init => exact inv_init n w iv
  | step h1 h2 ih =>
    cases h2 with
    | start => exact inv_start ih
    | stop => exact inv_stop ih
    | worker t ht => exact inv_workerStep ih t

theorem countP_le_one_of_unique {p : Nat → Bool} (t0 : Nat) :
    ∀ l : List Nat, l.Nodup → (∀ i ∈ l, p i = true → i = t0) → l.countP p ≤ 1 := by
  intro l
  induction l with
  | nil => intro _ _; simp
  | cons x xs ih =>
    intro hnd huniq
    rw [List.countP_cons]
    by_cases hx : p x = true
    · have hxt : x = t0 := huniq x (by simp) hx
      have hz : xs.countP p = 0 := by
        rw [List.countP_eq_zero]
        intro a ha hpa
        have hat : a = t0 := huniq a (by simp [ha]) hpa
        exact (List.nodup_cons.mp hnd).1 (by rw [hxt, ← hat]; exact ha)
      simp [hz, hx]
    · have hle : xs.countP p ≤ 1 :=
        ih (List.nodup_cons.mp hnd).2 (fun i hi hp => huniq i (by simp [hi]) hp)
      simp only [Bool.not_eq_true] at hx
      simp [hx]
      omega

theorem aliveCount_le_one {s : Application} (hinv : DaemonInv s) : s.aliveCount ≤ 1 := by
  unfold Application.aliveCount
  cases hwt : s.worker_thread with
  | none =>
    have hz : (List.range s.threads.length).countP (fun i => s.isAlive i) = 0 := by
      rw [List.countP_eq_zero]
      intro i _ halive
      have := alive_is_worker_thread hinv (by simpa using halive)
      rw [hwt] at this
      cases this
    omega
  | some t0 =>
    refine countP_le_one_of_unique t0 _ (List.nodup_range _) ?_
    intro i _ halive
    have := alive_is_worker_thread hinv (by simpa using halive)
    rw [hwt] at this
    injection this with h2
    exact h2.symm

theorem workerStep_eq_of_phaseStep_none {s : Application} {t : Nat} {ph : WorkerPhase}
    (hg : s.threads[t]? = some ph) (hps : s.phaseStep t ph = none) :
    s.workerStep t = s := by
  unfold Application.workerStep
  rw [hg]
  simp only [hps]

theorem workerStep_getElem_of_phaseStep_some {s : Application} {t : Nat}
    {ph ph2 : WorkerPhase} {ev : Bool}
    (hg : s.threads[t]? = some ph) (hps : s.phaseStep t ph = some (ph2, ev)) :
    (s.workerStep t).threads[t]? = some ph2 := by
  unfold Application.workerStep
  rw [hg]
  simp only [hps]
  exact List.getElem?_set_eq_of_lt ph2 (List.getElem?_eq_some.mp hg).1

theorem phaseStep_waiting {s : Application} {t : Nat} {ph : WorkerPhase} {k : Nat} {ev : Bool}
    (h : s.phaseStep t ph = some (.waiting k, ev)) :
    ph = .working k ∧ s.worker_loop k = false := by
  cases ph with
  | checking k0 =>
    by_cases he : s.shutdown_event <;> simp [Application.phaseStep, he] at h
  | working k0 =>
    by_cases hwl : s.worker_loop k0 <;> simp [Application.phaseStep, hwl] at h
    obtain ⟨h1, _⟩ := h
    subst h1
    exact ⟨rfl, by simpa using hwl⟩
  | waiting k0 => simp [Application.phaseStep] at h
  | failStopping k0 =>
    cases hwt : s.worker_thread with
    | none => simp [Application.phaseStep, hwt] at h
    | some u =>
      by_cases ha : s.isAlive u
      · by_cases hut : u = t
        · subst hut
          simp [Application.phaseStep, hwt, ha] at h
        · simp [Application.phaseStep, hwt, ha, hut] at h
      · simp [Application.phaseStep, hwt, ha] at h
  | deadNormal k0 => simp [Application.phaseStep] at h
  | deadError k0 => simp [Application.phaseStep] at h

/-! ## Claim theorems: worker daemon -/

/-- C5: under every interleaving of `start()` / `stop()` calls with worker
progress, at most one worker thread of an `Application` is alive at any
time; calling `start()` while a live worker exists changes nothing; and two
successive `start()` calls on a fresh daemon leave exactly one live worker. -/
theorem c5_at_most_one_worker (n : String) (w : WorkBehavior) (iv : Nat) :
    (∀ s, Reachable n w iv s → s.aliveCount ≤ 1)
    ∧ (∀ s : Application, s.is_running = true → s.start = s)
    ∧ ((Application.init n w iv).start.start).aliveCount = 1 := by
  refine ⟨fun s hs => aliveCount_le_one (reachable_inv hs), fun s hr => ?_, ?_⟩
  · unfold Application.start
    simp [hr]
  · rfl

theorem c5_at_most_one_worker_witness :
    ((Application.init "SysMon" wNever 20).start.start).aliveCount ≤ 1 :=
  (c5_at_most_one_worker "SysMon" wNever 20).1 _
    (Reachable.step (Reachable.step Reachable.init (Step.start _)) (Step.start _))

/-- C6: `stop()` on an Idle daemon (no worker thread, or the worker already
exited) is a no-op: it performs no join and leaves the state unchanged, hence
returns immediately without blocking and without raising. -/
theorem c6_stop_on_idle_noop (s : Application) (h : s.is_running = false) :
    s.stop = s := by
  unfold Application.stop
  cases hwt : s.worker_thread with
  | none => rfl
  | some t =>
    have hai : s.isAlive t = false := by
      unfold Application.is_running at h
      rw [hwt] at h
      exact h
    simp [hai]

theorem c6_stop_on_idle_noop_witness :
    (Application.init "SysMon" wNever 20).stop = Application.init "SysMon" wNever 20 :=
  c6_stop_on_idle_noop _ rfl

/-- C2 (refuting the claim on the code): after `start(); stop(); start()` with
a payload that never raises, the second `start()` does spawn a new thread, but
`shutdown_event` — set by `stop()` and never cleared by `start()` — is still
set, so the new worker's first `while` check exits the loop at once: it
completes zero work-unit cycles (`deadNormal 0`) and `is_running` drops to
`false`, instead of executing cycles as the claim states. -/
theorem c2_restarted_worker_exits_immediately :
    appC2.shutdown_event = true
    ∧ appC2.threads[1]? = some (WorkerPhase.checking 0)
    ∧ (appC2.workerStep 1).threads[1]? = some (WorkerPhase.deadNormal 0)
    ∧ (appC2.workerStep 1).is_running = false :=
  ⟨rfl, rfl, rfl, rfl⟩

/-- C3 (refuting the never-self-join conjunct on the code): with a payload
raising on its second cycle, the worker reaches the `except` handler
(`failStopping 1`) while `self.worker_thread` is the very thread executing it,
and the embedded `self.stop()` then sets the event and joins the current
thread — the `RuntimeError` kills the worker (`deadError 1`).  `is_running`
does become false without an external `stop()` and nothing escapes to the
caller of `start()`, but the self-stop path does attempt to join the thread
executing it. -/
theorem c3_self_stop_joins_own_thread :
    appC3a.threads = [WorkerPhase.failStopping 1]
    ∧ appC3a.worker_thread = some 0
    ∧ appC3a.isAlive 0 = true
    ∧ appC3.threads = [WorkerPhase.deadError 1]
    ∧ appC3.shutdown_event = true
    ∧ appC3.is_running = false :=
  ⟨rfl, rfl, rfl, rfl, rfl, rfl⟩

/-- C10: a worker at the top of `_loop` with the shutdown signal clear runs
the work unit for cycle 0 as its first action; and the inter-cycle wait is
entered only from a completed (non-raising) work-unit cycle, so no
`loop_interval` wait ever precedes a sample. -/
theorem c10_immediate_first_cycle (s : Application) (t : Nat)
    (hph : s.threads[t]? = some (WorkerPhase.checking 0))
    (hev : s.shutdown_event = false) :
    (s.workerStep t).threads[t]? = some (WorkerPhase.working 0)
    ∧ ∀ (s2 : Application) (u k : Nat),
        (s2.workerStep u).threads[u]? = some (WorkerPhase.waiting k) →
        s2.threads[u]? = some (WorkerPhase.working k) ∧ s2.worker_loop k = false := by
  constructor
  · have hps : s.phaseStep t (.checking 0) = some (.working 0, false) := by
      simp [Application.phaseStep, hev]
    exact workerStep_getElem_of_phaseStep_some hph hps
  · intro s2 u k hw
    cases hg : s2.threads[u]? with
    | none => simp [Application.workerStep, hg] at hw
    | some ph =>
      cases hps : s2.phaseStep u ph with
      | none =>
        rw [workerStep_eq_of_phaseStep_none hg hps] at hw
        rw [hg] at hw
        simp at hw
        subst hw
        simp [Application.phaseStep] at hps
      | some pr =>
        obtain ⟨ph2, ev⟩ := pr
        rw [workerStep_getElem_of_phaseStep_some hg hps] at hw
        simp at hw
        subst hw
        obtain ⟨hphi, hwl⟩ := phaseStep_waiting hps
        subst hphi
        exact ⟨rfl, hwl⟩

theorem c10_immediate_first_cycle_witness :
    (((Application.init "SysMon" wNever 20).start).workerStep 0).threads[0]? =
      some (WorkerPhase.working 0) :=
  (c10_immediate_first_cycle ((Application.init "SysMon" wNever 20).start) 0 rfl rfl).1

/-! ## Claim theorems: threshold evaluation and snapshot construction -/

/-- C1 (refuting the claim on the code): threshold evaluation does fail when
the CPU alert branch is taken.  On a capture with CPU usage 90 > 85, the guard
reads `metrics["system_info"]["cpu_usage"]`, but the warning message then reads
`metrics['cpu_usage']` — a key the record never contains — so
`check_thresholds` raises `KeyError: 'cpu_usage'` instead of completing. -/
theorem c1_cpu_branch_raises_keyerror :
    CPU_USAGE_PERCENT < 90
    ∧ check_thresholds (some (monitor_system_metrics rC1)) =
        Except.error "KeyError: cpu_usage" :=
  ⟨by decide, rfl⟩

/-- C4 (refuting the claim on the code): with CPU 86, memory 95 and a disk at
95 — every category strictly above its threshold — evaluation produces no
alert at all: the CPU branch raises `KeyError: 'cpu_usage'` before anything is
emitted.  The comparisons themselves are strict: a capture sitting exactly on
all three thresholds takes no branch and evaluates to no alerts and no
error. -/
theorem c4_strict_comparison_vs_keyerror :
    CPU_USAGE_PERCENT < 86 ∧ MEMORY_USAGE_PERCENT < 95 ∧ DISK_USAGE_PERCENT < 95
    ∧ check_thresholds (some (monitor_system_metrics rC4)) =
        Except.error "KeyError: cpu_usage"
    ∧ check_thresholds (some (monitor_system_metrics rC4eq)) = Except.ok [] :=
  ⟨by decide, by decide, by decide, rfl, rfl⟩

/-- C7 (refuting the claim on the code): on a capture where CPU (90), memory
(85) and a disk (95) all breach, no alert is emitted for the breaching disk
entry (or any category): the CPU branch raises `KeyError: 'cpu_usage'` first.
The orderly part of the claim is visible when the CPU is quiet: before the
first capture no alert is emitted, and with memory and two disks breaching
the alerts come out memory first, then the disks in insertion order. -/
theorem c7_alert_order_vs_keyerror :
    DISK_USAGE_PERCENT < 95
    ∧ check_thresholds (some (monitor_system_metrics rC7)) =
        Except.error "KeyError: cpu_usage"
    ∧ check_thresholds none = Except.ok []
    ∧ check_thresholds (some (monitor_system_metrics rC7b)) =
        Except.ok [Alert.memory (.num 85) MEMORY_USAGE_PERCENT,
                   Alert.disk "/dev/sda1" (.num 95) DISK_USAGE_PERCENT,
                   Alert.disk "/dev/sdb1" (.num 95) DISK_USAGE_PERCENT] :=
  ⟨by decide, rfl, rfl, rfl⟩

theorem dictInsert_of_not_mem {l : List (String × PyVal)} {k : String} (v : PyVal)
    (h : ¬ k ∈ l.map Prod.fst) : dictInsert l k v = l ++ [(k, v)] := by
  induction l with
  | nil => rfl
  | cons hd tl ih =>
    obtain ⟨k0, v0⟩ := hd
    simp only [List.map_cons, List.mem_cons] at h
    push_neg at h
    unfold dictInsert
    rw [if_neg (fun he => h.1 he.symm)]
    rw [ih h.2]
    rfl

theorem collectDiskInfo_eq (usage : String → Except String DiskUsageR) :
    ∀ (ps : List Partition) (acc : List (String × PyVal)),
      (acc.map Prod.fst ++ ps.map Partition.device).Nodup →
      collectDiskInfo usage ps acc = acc ++ ps.filterMap (diskResult usage) := by
  intro ps
  induction ps with
  | nil => intro acc _; simp [collectDiskInfo]
  | cons p rest ih =>
    intro acc hnd
    simp only [List.map_cons] at hnd
    cases hu : usage p.mountpoint with
    | ok du =>
      simp only [collectDiskInfo, hu]
      have hfresh : ¬ p.device ∈ acc.map Prod.fst := by
        have hdisj := (List.nodup_append.mp hnd).2.2
        exact fun hmem => hdisj hmem (by simp)
      rw [dictInsert_of_not_mem _ hfresh]
      have hnd2 : ((acc ++ [(p.device, diskEntry du p.mountpoint)]).map Prod.fst
          ++ rest.map Partition.device).Nodup := by
        simp only [List.map_append, List.map_cons, List.map_nil]
        simpa [List.append_assoc] using hnd
      rw [ih _ hnd2]
      simp [diskResult, hu, List.filterMap_cons, List.append_assoc]
    | error e =>
      simp only [collectDiskInfo, hu]
      have hnd3 : (acc.map Prod.fst ++ rest.map Partition.device).Nodup := by
        refine hnd.sublist ?_
        exact List.Sublist.append_left (List.sublist_cons_self _ _) _
      rw [ih _ hnd3]
      simp [diskResult, hu, List.filterMap_cons]

theorem filterMap_diskResult_all_ok (usage : String → Except String DiskUsageR) :
    ∀ ps : List Partition, (∀ p ∈ ps, ∃ du, usage p.mountpoint = .ok du) →
      (ps.filterMap (diskResult usage)).length = ps.length
      ∧ (ps.filterMap (diskResult usage)).map Prod.fst = ps.map Partition.device := by
  intro ps
  induction ps with
  | nil => intro _; simp
  | cons p rest ih =>
    intro hok
    obtain ⟨du, hdu⟩ := hok p (by simp)
    have ihr := ih (fun q hq => hok q (by simp [hq]))
    simp [List.filterMap_cons, diskResult, hdu, ihr.1, ihr.2]

/-- C8: when `disk_usage` raises `PermissionError` for exactly one of the
enumerated partitions and succeeds on the rest (device names pairwise
distinct, as produced by one enumeration), the disk loop completes without
propagating any error and the resulting disk map holds exactly the other
N−1 entries, keyed by device in enumeration order; every successful
partition's entry is present in it. -/
theorem c8_disk_partial_failure (usage : String → Except String DiskUsageR)
    (ps1 ps2 : List Partition) (pbad : Partition) (e : String)
    (hnodup : ((ps1 ++ pbad :: ps2).map Partition.device).Nodup)
    (hfail : usage pbad.mountpoint = .error e)
    (hok : ∀ p ∈ ps1 ++ ps2, ∃ du, usage p.mountpoint = .ok du) :
    (collectDiskInfo usage (ps1 ++ pbad :: ps2) []).length =
      (ps1 ++ pbad :: ps2).length - 1
    ∧ (collectDiskInfo usage (ps1 ++ pbad :: ps2) []).map Prod.fst =
        (ps1 ++ ps2).map Partition.device
    ∧ ∀ p ∈ ps1 ++ ps2, ∀ du, usage p.mountpoint = .ok du →
        (p.device, diskEntry du p.mountpoint) ∈
          collectDiskInfo usage (ps1 ++ pbad :: ps2) [] := by
  have hcoll := collectDiskInfo_eq usage (ps1 ++ pbad :: ps2) [] (by simpa using hnodup)
  rw [hcoll]
  have hsplit : (ps1 ++ pbad :: ps2).filterMap (diskResult usage)
      = ps1.filterMap (diskResult usage) ++ ps2.filterMap (diskResult usage) := by
    rw [List.filterMap_append]
    simp [List.filterMap_cons, diskResult, hfail]
  have hok1 : ∀ p ∈ ps1, ∃ du, usage p.mountpoint = .ok du :=
    fun p hp => hok p (by simp [hp])
  have hok2 : ∀ p ∈ ps2, ∃ du, usage p.mountpoint = .ok du :=
    fun p hp => hok p (by simp [hp])
  have h1 := filterMap_diskResult_all_ok usage ps1 hok1
  have h2 := filterMap_diskResult_all_ok usage ps2 hok2
  refine ⟨?_, ?_, ?_⟩
  · simp only [List.nil_append, hsplit, List.length_append, List.length_cons,
      h1.1, h2.1]
    omega
  · simp only [List.nil_append, hsplit, List.map_append, h1.2, h2.2]
  · intro p hp du hdu
    simp only [List.nil_append, hsplit, List.mem_append]
    rcases List.mem_append.mp hp with hp1 | hp2
    · exact Or.inl (List.mem_filterMap.mpr ⟨p, hp1, by simp [diskResult, hdu]⟩)
    · exact Or.inr (List.mem_filterMap.mpr ⟨p, hp2, by simp [diskResult, hdu]⟩)

theorem c8_disk_partial_failure_witness :
    (collectDiskInfo uC8 ([pC8a] ++ pC8b :: [pC8c]) []).length =
      ([pC8a] ++ pC8b :: [pC8c]).length - 1 :=
  (c8_disk_partial_failure uC8 [pC8a] [pC8c] pC8b "PermissionError: /var"
    (by decide) rfl
    (by
      intro p hp
      simp only [List.mem_append, List.mem_singleton] at hp
      rcases hp with h | h <;> subst h <;> exact ⟨_, rfl⟩)).1

/-- C9: top-process selection keeps exactly the processes with a
`memory_percent` reading, sorts them descending by that reading with a stable
sort, and reports the first 5.  On the claim's enumeration
`[10, 40, 40, 5, 90, 1]` (pids 1..6) the result is `[90, 40, 40, 10, 5]` with
the tied pair (pids 2, 3) in original relative order; in general the output is
descending, has length at most 5, and consists of input processes that all
carry a reading; an input lacking a reading is discarded. -/
theorem c9_top_process_selection :
    topProcesses procsClaim =
      [⟨5, "e", some 90⟩, ⟨2, "b", some 40⟩, ⟨3, "c", some 40⟩,
       ⟨1, "a", some 10⟩, ⟨4, "d", some 5⟩]
    ∧ (∀ ps : List ProcInfo,
        List.Sorted procDescOrder (topProcesses ps)
        ∧ (topProcesses ps).length ≤ 5
        ∧ ∀ p ∈ topProcesses ps, p.memory_percent.isSome = true ∧ p ∈ ps)
    ∧ topProcesses [⟨7, "g", some 3⟩, ⟨8, "h", none⟩, ⟨9, "i", some 4⟩] =
        [⟨9, "i", some 4⟩, ⟨7, "g", some 3⟩] := by
  refine ⟨by decide, fun ps => ⟨?_, ?_, ?_⟩, by decide⟩
  · haveI : IsTotal ProcInfo procDescOrder := ⟨fun a b => le_total (memKey b) (memKey a)⟩
    haveI : IsTrans ProcInfo procDescOrder := ⟨fun a b c h1 h2 => le_trans h2 h1⟩
    unfold topProcesses
    exact (List.sorted_insertionSort procDescOrder _).sublist (List.take_sublist _ _)
  · exact List.length_take_le _ _
  · intro p hp
    unfold topProcesses at hp
    have hp1 : p ∈ (ps.filter (fun q => q.memory_percent.isSome)).insertionSort
        procDescOrder := (List.take_sublist _ _).subset hp
    have hp2 : p ∈ ps.filter (fun q => q.memory_percent.isSome) :=
      (List.mem_insertionSort procDescOrder).mp hp1
    have hp3 := List.mem_filter.mp hp2
    exact ⟨hp3.2, hp3.1⟩

theorem c9_top_process_selection_witness :
    (topProcesses procsClaim).length ≤ 5 :=
  (c9_top_process_selection.2.1 procsClaim).2.1
